import Mathlib

/-!
Verification development for the wasmedgeup version/plugin manager.

Shallow embedding of the relevant Rust sources:
- `src/error.rs`           → `Error`
- `src/target.rs`          → `TargetOS`, `TargetArch`
- `src/system/spec.rs`     → `LibcKind`, `OsSpec`
- semver crate essentials  → `SemVer`, `semverCompare`, `versionParse`
- `src/system/plugins.rs`  → `pluginPlatformKey`
- `src/api/mod.rs`         → `formatArchiveName`, `reqMatchesLe014`,
                             `resolveVersion`, `verifyFileChecksum`,
                             `apiLatestInstalledVersion`
- `src/fs.rs`              → `rewriteLib64`, `copyTreeDest`,
                             `createVersionSymlinks`
- `src/commands/remove.rs` → `getLatestInstalledVersion`, `removeVersion`
- `src/commands/install.rs`→ `selectExtractedDir`, `installExecute`
- `src/commands/plugin/mod.rs` → `pluginCliExecute`
-/

namespace Wasmedgeup

/-- Error enum from `src/error.rs` (the variants relevant to the claims;
field payloads kept, `source` payloads of wrapped OS errors dropped). -/
inductive Error where
  | VersionNotFound (version : String)
  | SemVer
  | ChecksumNotFound (version asset : String)
  | ChecksumMismatch (expected actual : String)
  | UnsupportedPlatform (os arch : String)
  | InsufficientPermissions (path action version systemDir sudoStr : String)
  | InvalidArchiveStructure (foundFile : String)
  | NoPluginsSpecified
  | Unknown
  | Io (action path : String)
  deriving DecidableEq, Repr

/-- Modelled from the spec: `WasmedgeupError` is referenced by
`src/commands/remove.rs` and `src/config.rs` but its declaration is missing
from `src/`; variants are reconstructed from its use sites. -/
inductive WasmedgeupError where
  | VersionNotFound (version : String)
  | NoVersionsInstalled
  | IoError
  | PluginNotFound (name : String)
  deriving DecidableEq, Repr

/-- `TargetOS` from `src/target.rs`. -/
inductive TargetOS where
  | Linux
  | Ubuntu
  | Darwin
  | Windows
  deriving DecidableEq, Repr

/-- `TargetArch` from `src/target.rs`. -/
inductive TargetArch where
  | X86_64
  | Aarch64
  deriving DecidableEq, Repr

/-- `LibcKind` from `src/system/spec.rs`. -/
inductive LibcKind where
  | Glibc
  | Musl
  | Unknown
  deriving DecidableEq, Repr

/-- The fields of `OsSpec` (`src/system/spec.rs`) that the embedded code
reads; `libc` is flattened to its `kind` since only the kind is inspected. -/
structure OsSpec where
  os_type : TargetOS
  arch : TargetArch
  distro : Option String
  version : Option String
  libc : LibcKind
  deriving DecidableEq, Repr

/-- `format!("{:?}", os_type)` for the derived `Debug` of `TargetOS`. -/
def osTypeDebug : TargetOS → String
  | .Linux => "Linux"
  | .Ubuntu => "Ubuntu"
  | .Darwin => "Darwin"
  | .Windows => "Windows"

/-- `format!("{:?}", arch)` for the derived `Debug` of `TargetArch`. -/
def archDebug : TargetArch → String
  | .X86_64 => "X86_64"
  | .Aarch64 => "Aarch64"

/-- `arch_to_string` from `src/system/plugins.rs`. -/
def archToString : TargetArch → String
  | .X86_64 => "x86_64"
  | .Aarch64 => "aarch64"

/-- `arch_to_darwin_string` from `src/system/plugins.rs`. -/
def archToDarwinString : TargetArch → String
  | .Aarch64 => "arm64"
  | .X86_64 => "x86_64"

/-! ## Semantic versions (semver crate essentials)

`semver::Version` as used by the repository: `major.minor.patch`, an optional
pre-release (dot-separated identifiers, numeric or alphanumeric), and optional
build metadata.  Precedence ignores build metadata. -/

/-- One pre-release identifier: numeric or alphanumeric (semver `Identifier`). -/
inductive PreId where
  | num (n : Nat)
  | alnum (s : String)
  deriving DecidableEq, Repr

/-- A semver version value. -/
structure SemVer where
  major : Nat
  minor : Nat
  patch : Nat
  pre : List PreId
  build : List String
  deriving DecidableEq, Repr

/-- semver identifier precedence: numeric sorts below alphanumeric; numeric
identifiers compare as numbers, alphanumeric ones in ASCII order. -/
def preIdCompare : PreId → PreId → Ordering
  | .num a, .num b => compare a b
  | .num _, .alnum _ => .lt
  | .alnum _, .num _ => .gt
  | .alnum a, .alnum b => compare a b

/-- Pointwise comparison of nonempty pre-release identifier lists; a proper
prefix sorts first. -/
def preListCompare : List PreId → List PreId → Ordering
  | [], [] => .eq
  | [], _ :: _ => .lt
  | _ :: _, [] => .gt
  | a :: as, b :: bs =>
    match preIdCompare a b with
    | .eq => preListCompare as bs
    | o => o

/-- semver pre-release precedence: an empty pre-release (a stable version)
sorts above any non-empty one. -/
def preCompare : List PreId → List PreId → Ordering
  | [], [] => .eq
  | [], _ :: _ => .gt
  | _ :: _, [] => .lt
  | a :: as, b :: bs => preListCompare (a :: as) (b :: bs)

/-- `Ord for semver::Version` (build metadata ignored). -/
def semverCompare (a b : SemVer) : Ordering :=
  match compare a.major b.major with
  | .eq =>
    match compare a.minor b.minor with
    | .eq =>
      match compare a.patch b.patch with
      | .eq => preCompare a.pre b.pre
      | o => o
    | o => o
  | o => o

/-- `a < b` on semver versions. -/
def semverLt (a b : SemVer) : Bool := semverCompare a b == Ordering.lt

/-- `a >= b` on semver versions. -/
def semverGe (a b : SemVer) : Bool := !(semverLt a b)

/-- `Display for semver::Identifier`. -/
def preIdToString : PreId → String
  | .num n => toString n
  | .alnum s => s

/-- `Display for semver::Version`: `major.minor.patch`, then `-pre` when the
pre-release is non-empty, then `+build` when build metadata is present. -/
def semverToString (v : SemVer) : String :=
  toString v.major ++ "." ++ toString v.minor ++ "." ++ toString v.patch
    ++ (if v.pre.isEmpty then ""
        else "-" ++ String.intercalate "." (v.pre.map preIdToString))
    ++ (if v.build.isEmpty then ""
        else "+" ++ String.intercalate "." v.build)

/-! ### `semver::Version::parse` -/

/-- `str::split_once(sep)`: split at the first occurrence of `sep`. -/
def splitOnceChar (sep : Char) : List Char → Option (List Char × List Char)
  | [] => none
  | c :: rest =>
    if c = sep then some ([], rest)
    else (splitOnceChar sep rest).map (fun p => (c :: p.1, p.2))

/-- `str::split(sep)`: split at every occurrence of `sep`, keeping empties. -/
def splitAllChar (sep : Char) : List Char → List (List Char)
  | [] => [[]]
  | c :: rest =>
    let r := splitAllChar sep rest
    if c = sep then [] :: r
    else
      match r with
      | h :: t => (c :: h) :: t
      | [] => [[c]]

/-- Numeric value of a digit string. -/
def natOfDigits (l : List Char) : Nat :=
  l.foldl (fun a c => a * 10 + (c.toNat - 48)) 0

/-- A semver numeric identifier: nonempty, all ASCII digits, no leading zero. -/
def parseNumIdent (l : List Char) : Option Nat :=
  if l.isEmpty then none
  else if l.all Char.isDigit then
    if 1 < l.length ∧ l.head? = some '0' then none
    else some (natOfDigits l)
  else none

/-- Characters allowed in semver pre-release/build identifiers. -/
def isIdentChar (c : Char) : Bool := c.isAlphanum || c = '-'

/-- A semver pre-release identifier: nonempty, `[0-9A-Za-z-]`; digits-only
identifiers are numeric and must not have a leading zero. -/
def parsePreId (l : List Char) : Option PreId :=
  if l.isEmpty then none
  else if !(l.all isIdentChar) then none
  else if l.all Char.isDigit then
    if 1 < l.length ∧ l.head? = some '0' then none
    else some (.num (natOfDigits l))
  else some (.alnum (String.mk l))

/-- A semver build identifier: nonempty, `[0-9A-Za-z-]` (leading zeros allowed). -/
def parseBuildId (l : List Char) : Option String :=
  if l.isEmpty then none
  else if !(l.all isIdentChar) then none
  else some (String.mk l)

/-- Sequence a list of `Option`s. -/
def optionAll {α : Type} : List (Option α) → Option (List α)
  | [] => some []
  | o :: os =>
    match o, optionAll os with
    | some a, some as => some (a :: as)
    | _, _ => none

/-- `semver::Version::parse`: `MAJOR.MINOR.PATCH[-PRE][+BUILD]`.  The version
core contains no `-` or `+`, so the first `+` starts the build metadata and,
before it, the first `-` starts the pre-release. -/
def versionParse (s : String) : Option SemVer :=
  let l := s.data
  let vpartBuild : List Char × Option (List Char) :=
    match splitOnceChar '+' l with
    | some (a, b) => (a, some b)
    | none => (l, none)
  let corePre : List Char × Option (List Char) :=
    match splitOnceChar '-' vpartBuild.1 with
    | some (a, b) => (a, some b)
    | none => (vpartBuild.1, none)
  match splitAllChar '.' corePre.1 with
  | [ma, mi, pa] =>
    match parseNumIdent ma, parseNumIdent mi, parseNumIdent pa with
    | some major, some minor, some patch =>
      let preIds : Option (List PreId) :=
        match corePre.2 with
        | none => some []
        | some p => optionAll ((splitAllChar '.' p).map parsePreId)
      let buildIds : Option (List String) :=
        match vpartBuild.2 with
        | none => some []
        | some b => optionAll ((splitAllChar '.' b).map parseBuildId)
      match preIds, buildIds with
      | some pre, some build => some ⟨major, minor, patch, pre, build⟩
      | _, _ => none
    | _, _, _ => none
  | _ => none

/-! ## Plugin platform key (`src/system/plugins.rs`) -/

/-- `plugin_platform_key` from `src/system/plugins.rs`.  The Linux/glibc
branch parses the boundary `"0.15.0-rc.0"` and compares the runtime version
strictly below it, exactly as the source does. -/
def pluginPlatformKey (os : OsSpec) (runtimeVersion : SemVer) : Except Error String :=
  let archStr := archToString os.arch
  match os.os_type with
  | .Darwin =>
    let darwinArch := archToDarwinString os.arch
    match os.version with
    | some ver =>
      match splitOnceChar '.' ver.data with
      | some (major, _rest) =>
        if !major.isEmpty && major.all Char.isDigit then
          .ok ("darwin_" ++ String.mk major ++ "-" ++ darwinArch)
        else .ok ("darwin_" ++ darwinArch)
      | none => .ok ("darwin_" ++ darwinArch)
    | none => .ok ("darwin_" ++ darwinArch)
  | .Windows =>
    match os.arch with
    | .X86_64 => .ok "windows_x86_64"
    | _ => .error (.UnsupportedPlatform "Windows" (archDebug os.arch))
  | .Linux | .Ubuntu =>
    if os.libc = .Glibc then
      match versionParse "0.15.0-rc.0" with
      | none => .error .SemVer
      | some rcBoundary =>
        if semverLt runtimeVersion rcBoundary then .ok ("manylinux2014_" ++ archStr)
        else .ok ("manylinux_2_28_" ++ archStr)
    else .error (.UnsupportedPlatform (osTypeDebug os.os_type) (archDebug os.arch))

/-! ## Asset naming (`src/api/mod.rs`) -/

/-- `is_manylinux2014_supported` from `src/api/mod.rs`: semver
`VersionReq::matches` for the single comparator
`{ op: LessEq, major: 0, minor: Some 14, patch: None, pre: empty }`,
following the semver crate's `eval.rs`: `matches_impl` is
`matches_exact || matches_less`, and a version with a non-empty pre-release
additionally needs a comparator with the same `major.minor.patch` and a
non-empty pre-release — which this comparator (patch unspecified, empty pre)
never provides. -/
def reqMatchesLe014 (v : SemVer) : Bool :=
  let matchesExact := v.major == 0 && v.minor == 14 && v.pre == ([] : List PreId)
  let matchesLess :=
    if v.major ≠ 0 then decide (v.major < 0)
    else if v.minor ≠ 14 then decide (v.minor < 14)
    else false
  let matchesImpl := matchesExact || matchesLess
  if !matchesImpl then false
  else if v.pre.isEmpty then true
  else false

/-- `is_arm_ubuntu_supported` from `src/api/mod.rs`. -/
def isArmUbuntuSupported (v : SemVer) : Bool :=
  semverGe v ⟨0, 13, 5, [], []⟩

/-- The generic Linux/Ubuntu arm of `Asset::format_archive_name`. -/
def manylinuxName (version : SemVer) (arch : TargetArch) : String :=
  let manylinuxVersion := if reqMatchesLe014 version then "manylinux2014" else "manylinux_2_28"
  let archStr :=
    match arch with
    | .X86_64 => "x86_64"
    | .Aarch64 => "aarch64"
  "WasmEdge-" ++ semverToString version ++ "-" ++ manylinuxVersion ++ "_" ++ archStr ++ ".tar.gz"

/-- `Asset::format_archive_name` from `src/api/mod.rs`; arms in source order
(`Ubuntu/x86_64`, guarded `Ubuntu/aarch64`, generic `Linux|Ubuntu`, Darwin,
Windows). -/
def formatArchiveName (version : SemVer) (os : TargetOS) (arch : TargetArch) : String :=
  match os, arch with
  | .Ubuntu, .X86_64 => "WasmEdge-" ++ semverToString version ++ "-ubuntu20.04_x86_64.tar.gz"
  | .Ubuntu, .Aarch64 =>
    if isArmUbuntuSupported version then
      "WasmEdge-" ++ semverToString version ++ "-ubuntu20.04_aarch64.tar.gz"
    else manylinuxName version .Aarch64
  | .Linux, a => manylinuxName version a
  | .Darwin, .X86_64 => "WasmEdge-" ++ semverToString version ++ "-darwin_x86_64.tar.gz"
  | .Darwin, .Aarch64 => "WasmEdge-" ++ semverToString version ++ "-darwin_arm64.tar.gz"
  | .Windows, _ => "WasmEdge-" ++ semverToString version ++ "-windows.zip"

/-- `Asset::format_install_name` from `src/api/mod.rs`. -/
def formatInstallName (version : SemVer) (os : TargetOS) : String :=
  match os with
  | .Linux | .Ubuntu => "WasmEdge-" ++ semverToString version ++ "-Linux"
  | .Darwin => "WasmEdge-" ++ semverToString version ++ "-Darwin"
  | .Windows => "WasmEdge-" ++ semverToString version ++ "-Windows"

/-! ## Version resolution (`src/api/mod.rs`, `src/api/releases.rs`) -/

/-- `ReleasesFilter` from `src/api/releases.rs`. -/
inductive ReleasesFilter where
  | All
  | Stable
  deriving DecidableEq, Repr

/-- `ReleasesFilter::matches` from `src/api/releases.rs`. -/
def releasesFilterMatches : ReleasesFilter → SemVer → Bool
  | .All, _ => true
  | .Stable, v => v.pre.isEmpty

/-- Modelled from the spec: `releases::get_all` is called by
`WasmEdgeApiClient::latest_release`/`releases` but is missing from `src/`
(only its callers and `ReleasesFilter` are present).  Per the spec the
releases source yields a reverse-chronological tag sequence and the stable
filter strips versions with a non-empty pre-release; the already-ordered tag
list is taken as input. -/
def getAll (tags : List SemVer) (filter : ReleasesFilter) : List SemVer :=
  tags.filter (releasesFilterMatches filter)

/-- `WasmEdgeApiClient::latest_release` from `src/api/mod.rs`:
`releases::get_all(.., Stable)`, then the first element or `Error::Unknown`. -/
def latestRelease (tags : List SemVer) : Except Error SemVer :=
  match (getAll tags .Stable).head? with
  | some v => .ok v
  | none => .error .Unknown

/-- `WasmEdgeApiClient::resolve_version` from `src/api/mod.rs`. -/
def resolveVersion (tags : List SemVer) (version : String) : Except Error SemVer :=
  if version = "latest" then latestRelease tags
  else
    match versionParse version with
    | some v => .ok v
    | none => .error .SemVer

/-! ## Claim C5 -/

/-- C5: on Linux (or Ubuntu, which the source groups with Linux) with glibc,
`plugin_platform_key` yields `manylinux2014_<arch>` exactly for runtime
versions strictly below `0.15.0-rc.0` and `manylinux_2_28_<arch>` otherwise;
for any other libc kind it fails with `UnsupportedPlatform{os, arch}`. -/
theorem c5_plugin_platform_key (os : OsSpec) (v : SemVer)
    (hos : os.os_type = .Linux ∨ os.os_type = .Ubuntu) :
    (os.libc = .Glibc →
      pluginPlatformKey os v =
        .ok ((if semverLt v ⟨0, 15, 0, [.alnum "rc", .num 0], []⟩ then
                "manylinux2014_" else "manylinux_2_28_")
             ++ archToString os.arch)) ∧
    (os.libc ≠ .Glibc →
      pluginPlatformKey os v =
        .error (.UnsupportedPlatform (osTypeDebug os.os_type) (archDebug os.arch))) := by
  have hparse : versionParse "0.15.0-rc.0" = some ⟨0, 15, 0, [.alnum "rc", .num 0], []⟩ := by
    decide
  constructor
  · intro hlibc
    rcases hos with h | h <;>
      · simp only [pluginPlatformKey, h, hparse, hlibc, if_true, reduceIte]
        by_cases hlt : semverLt v ⟨0, 15, 0, [.alnum "rc", .num 0], []⟩ <;>
          simp [hlt]
  · intro hlibc
    rcases hos with h | h <;>
      · simp only [pluginPlatformKey, h]
        rw [if_neg hlibc]

/-- C5 witness: concrete evaluations at 0.14.9 (below the boundary), 0.15.0
(above it) and a musl-libc Linux host. -/
theorem c5_plugin_platform_key_witness :
    pluginPlatformKey ⟨.Linux, .X86_64, none, none, .Glibc⟩ ⟨0, 14, 9, [], []⟩ =
        .ok "manylinux2014_x86_64" ∧
    pluginPlatformKey ⟨.Linux, .X86_64, none, none, .Glibc⟩ ⟨0, 15, 0, [], []⟩ =
        .ok "manylinux_2_28_x86_64" ∧
    pluginPlatformKey ⟨.Linux, .Aarch64, none, none, .Musl⟩ ⟨0, 15, 0, [], []⟩ =
        .error (.UnsupportedPlatform "Linux" "Aarch64") := by
  refine ⟨?_, ?_, ?_⟩
  · rw [(c5_plugin_platform_key ⟨.Linux, .X86_64, none, none, .Glibc⟩
        ⟨0, 14, 9, [], []⟩ (Or.inl rfl)).1 rfl]
    rfl
  · rw [(c5_plugin_platform_key ⟨.Linux, .X86_64, none, none, .Glibc⟩
        ⟨0, 15, 0, [], []⟩ (Or.inl rfl)).1 rfl]
    rfl
  · rw [(c5_plugin_platform_key ⟨.Linux, .Aarch64, none, none, .Musl⟩
        ⟨0, 15, 0, [], []⟩ (Or.inl rfl)).2 (by simp)]
    rfl

/-! ## Claim C6 -/

/-- The semver `<=0.14` requirement holds exactly for stable versions with
major 0 and minor at most 14: every pre-release version fails it. -/
theorem reqMatchesLe014_eq (v : SemVer) :
    reqMatchesLe014 v = (v.pre.isEmpty && (v.major == 0 && decide (v.minor ≤ 14))) := by
  rcases v with ⟨ma, mi, pa, pre, b⟩
  rw [Bool.eq_iff_iff]
  by_cases hma : ma = 0 <;> by_cases hmi : mi = 14 <;> rcases pre with _ | ⟨p, ps⟩ <;>
    simp [reqMatchesLe014, hma, hmi] <;> omega

/-- C6 counterexample: `0.14.0-rc.1` is `≤ 0.14.x` in semantic-version order
(major 0, minor 14), yet `archive_name` on generic Linux gives it the
`manylinux_2_28` tag, not `manylinux2014`. -/
theorem c6_archive_name_cx :
    (SemVer.major ⟨0, 14, 0, [.alnum "rc", .num 1], []⟩ = 0 ∧
     SemVer.minor ⟨0, 14, 0, [.alnum "rc", .num 1], []⟩ ≤ 14) ∧
    formatArchiveName ⟨0, 14, 0, [.alnum "rc", .num 1], []⟩ .Linux .X86_64 =
      "WasmEdge-0.14.0-rc.1-manylinux_2_28_x86_64.tar.gz" ∧
    "WasmEdge-0.14.0-rc.1-manylinux_2_28_x86_64.tar.gz" ≠
      "WasmEdge-0.14.0-rc.1-manylinux2014_x86_64.tar.gz" := by
  refine ⟨⟨rfl, by decide⟩, rfl, by decide⟩

/-- C6 (amended): for generic Linux/Ubuntu platforms not covered by the
dedicated ubuntu20.04 rules, `archive_name` selects the `manylinux2014` tag
exactly for stable versions (empty pre-release) with major 0 and minor ≤ 14;
every pre-release version — even in the 0.14 series — and every version
≥ 0.15.0 gets `manylinux_2_28`, because the semver `<=0.14` requirement
rejects all pre-releases. -/
theorem c6_archive_name_amended (v : SemVer) (os : TargetOS) (arch : TargetArch)
    (h : os = .Linux ∨ (os = .Ubuntu ∧ arch = .Aarch64 ∧ isArmUbuntuSupported v = false)) :
    formatArchiveName v os arch =
      "WasmEdge-" ++ semverToString v ++ "-" ++
        (if v.pre = [] ∧ v.major = 0 ∧ v.minor ≤ 14 then "manylinux2014" else "manylinux_2_28")
        ++ "_" ++ archToString arch ++ ".tar.gz" := by
  have key : manylinuxName v arch =
      "WasmEdge-" ++ semverToString v ++ "-" ++
        (if v.pre = [] ∧ v.major = 0 ∧ v.minor ≤ 14 then "manylinux2014" else "manylinux_2_28")
        ++ "_" ++ archToString arch ++ ".tar.gz" := by
    simp only [manylinuxName, reqMatchesLe014_eq]
    by_cases hp : v.pre = [] <;> by_cases hma : v.major = 0 <;> by_cases hmi : v.minor ≤ 14 <;>
      cases arch <;>
        simp [hp, hma, hmi, archToString, List.isEmpty_iff]
  rcases h with h | ⟨h1, h2, h3⟩
  · subst h
    cases arch <;> simpa [formatArchiveName] using key
  · subst h1; subst h2
    simpa [formatArchiveName, h3] using key

/-- C6 witness: the amended rule evaluated at the stable version 0.14.1 on
generic Linux x86_64. -/
theorem c6_archive_name_amended_witness :
    formatArchiveName ⟨0, 14, 1, [], []⟩ .Linux .X86_64 =
      "WasmEdge-0.14.1-manylinux2014_x86_64.tar.gz" := by
  rw [c6_archive_name_amended ⟨0, 14, 1, [], []⟩ .Linux .X86_64 (Or.inl rfl)]
  rfl

/-! ## Claim C4 -/

/-- First element of a filtered list, characterised by a decomposition of the
original list. -/
theorem head?_filter_eq_some {α : Type} (p : α → Bool) (l : List α) (v : α) :
    (l.filter p).head? = some v ↔
      ∃ l₁ l₂, l = l₁ ++ v :: l₂ ∧ (∀ u ∈ l₁, p u = false) ∧ p v = true := by
  induction l with
  | nil =>
    simp only [List.filter_nil, List.head?_nil]
    constructor
    · intro h; cases h
    · rintro ⟨l₁, l₂, h, -, -⟩
      exact absurd h (by simp)
  | cons a as ih =>
    by_cases ha : p a
    · simp only [List.filter_cons, ha, reduceIte, List.head?_cons]
      constructor
      · intro h
        injection h with h
        subst h
        exact ⟨[], as, rfl, by simp, ha⟩
      · rintro ⟨l₁, l₂, hdec, hall, hv⟩
        rcases l₁ with _ | ⟨b, l₁'⟩
        · rw [List.nil_append] at hdec
          injection hdec with h1 h2
          rw [h1]
        · rw [List.cons_append] at hdec
          injection hdec with h1 h2
          have hb := hall b (List.mem_cons_self b l₁')
          rw [← h1, ha] at hb
          cases hb
    · have ha' : p a = false := by simpa using ha
      simp only [List.filter_cons, ha', Bool.false_eq_true, reduceIte]
      rw [ih]
      constructor
      · rintro ⟨l₁, l₂, hdec, hall, hv⟩
        refine ⟨a :: l₁, l₂, by simp [hdec], ?_, hv⟩
        intro u hu
        rcases List.mem_cons.mp hu with h | h
        · rw [h]; exact ha'
        · exact hall u h
      · rintro ⟨l₁, l₂, hdec, hall, hv⟩
        rcases l₁ with _ | ⟨b, l₁'⟩
        · rw [List.nil_append] at hdec
          injection hdec with h1 h2
          rw [← h1] at hv
          rw [hv] at ha'
          cases ha'
        · rw [List.cons_append] at hdec
          injection hdec with h1 h2
          refine ⟨l₁', l₂, h2, ?_, hv⟩
          intro u hu
          exact hall u (List.mem_cons_of_mem b hu)

/-- C4 counterexample: when the release listing has no stable release,
"latest" resolution fails with the generic `Error::Unknown` — the error enum
of `src/error.rs` has no `NoReleasesFound` variant at all — both on an empty
listing and on one holding only a pre-release. -/
theorem c4_resolve_cx :
    resolveVersion [] "latest" = .error .Unknown ∧
    resolveVersion [⟨0, 15, 0, [.alnum "rc", .num 1], []⟩] "latest" = .error .Unknown ∧
    Error.Unknown ≠ Error.VersionNotFound "latest" := by
  exact ⟨rfl, rfl, by decide⟩

/-- C4 (amended): `resolve("latest")` returns the first release of the
reverse-chronological listing whose pre-release component is empty (the
stable filter), and fails with the generic `Unknown` error when no stable
release exists; any other token is parsed directly as a semantic version
(pre-releases allowed), failing with the invalid-version error `SemVer`
exactly when parsing fails. -/
theorem c4_resolve_amended (tags : List SemVer) (tok : String) :
    (tok = "latest" →
      (∀ v, resolveVersion tags tok = .ok v ↔
        ∃ l₁ l₂, tags = l₁ ++ v :: l₂ ∧ (∀ u ∈ l₁, u.pre ≠ []) ∧ v.pre = []) ∧
      ((∀ u ∈ tags, u.pre ≠ []) → resolveVersion tags tok = .error .Unknown)) ∧
    (tok ≠ "latest" →
      resolveVersion tags tok =
        (match versionParse tok with
         | some v => Except.ok v
         | none => Except.error Error.SemVer)) := by
  have hres : resolveVersion tags "latest" = latestRelease tags := by
    simp [resolveVersion]
  have hsome : ∀ w, (getAll tags .Stable).head? = some w → latestRelease tags = .ok w := by
    intro w hw
    unfold latestRelease
    rw [hw]
  have hnone : (getAll tags .Stable).head? = none → latestRelease tags = .error .Unknown := by
    intro hw
    unfold latestRelease
    rw [hw]
  have hstable : ∀ u : SemVer, releasesFilterMatches .Stable u = true ↔ u.pre = [] := by
    intro u
    simp [releasesFilterMatches, List.isEmpty_iff]
  have hunstable : ∀ u : SemVer, releasesFilterMatches .Stable u = false ↔ u.pre ≠ [] := by
    intro u
    simp [releasesFilterMatches, Bool.eq_false_iff, List.isEmpty_iff]
  constructor
  · intro htok
    subst htok
    constructor
    · intro v
      rw [hres]
      constructor
      · intro h
        have hh : (getAll tags .Stable).head? = some v := by
          rcases hx : (getAll tags .Stable).head? with _ | w
          · rw [hnone hx] at h; cases h
          · rw [hsome w hx] at h
            injection h with h
            subst h
            rfl
        rcases (head?_filter_eq_some _ tags v).mp hh with ⟨l₁, l₂, hdec, hall, hv⟩
        exact ⟨l₁, l₂, hdec, fun u hu => (hunstable u).mp (hall u hu), (hstable v).mp hv⟩
      · rintro ⟨l₁, l₂, hdec, hall, hv⟩
        refine hsome v ((head?_filter_eq_some _ tags v).mpr
          ⟨l₁, l₂, hdec, fun u hu => (hunstable u).mpr (hall u hu), (hstable v).mpr hv⟩)
    · intro hall
      rw [hres]
      apply hnone
      have hnil : List.filter (releasesFilterMatches .Stable) tags = [] := by
        rw [List.filter_eq_nil_iff]
        intro u hu
        simp only [Bool.not_eq_true]
        exact (hunstable u).mpr (hall u hu)
      show (List.filter (releasesFilterMatches .Stable) tags).head? = none
      rw [hnil]
      rfl
  · intro htok
    simp [resolveVersion, htok]

/-- C4 witness: the amended behaviour evaluated on a concrete listing whose
newest entry is a pre-release, and on explicit version tokens. -/
theorem c4_resolve_amended_witness :
    resolveVersion [⟨0, 15, 0, [.alnum "rc", .num 1], []⟩, ⟨0, 14, 1, [], []⟩, ⟨0, 14, 0, [], []⟩]
        "latest" = .ok ⟨0, 14, 1, [], []⟩ ∧
    resolveVersion [] "1.2.3" = .ok ⟨1, 2, 3, [], []⟩ ∧
    resolveVersion [] "abc" = .error .SemVer := by
  refine ⟨?_, ?_, ?_⟩
  · exact ((c4_resolve_amended
      [⟨0, 15, 0, [.alnum "rc", .num 1], []⟩, ⟨0, 14, 1, [], []⟩, ⟨0, 14, 0, [], []⟩]
      "latest").1 rfl).1 ⟨0, 14, 1, [], []⟩ |>.mpr
      ⟨[⟨0, 15, 0, [.alnum "rc", .num 1], []⟩], [⟨0, 14, 0, [], []⟩], rfl, by decide, rfl⟩
  · rw [(c4_resolve_amended [] "1.2.3").2 (by decide)]
    rfl
  · rw [(c4_resolve_amended [] "abc").2 (by decide)]
    rfl

/-! ## Tree-copy path rewriting (`src/fs.rs`, `copy_tree`) -/

/-- `str::replace("lib64", LIB_DIR)` as applied by `copy_tree` in
`src/fs.rs`: leftmost, non-overlapping replacement of every occurrence of the
substring `lib64` anywhere in the relative path string by `lib`.  (`LIB_DIR`
is declared in the crate prelude, which is missing from `src/`; modelled from
the spec as `"lib"`.) -/
def rewriteLib64 : List Char → List Char
  | [] => []
  | c :: rest =>
    if c = 'l' ∧ rest.take 4 = ['i', 'b', '6', '4'] then
      'l' :: 'i' :: 'b' :: rewriteLib64 (rest.drop 4)
    else c :: rewriteLib64 rest
termination_by l => l.length
decreasing_by
  all_goals simp [List.length_drop]
  omega

/-- Whether the substring `lib64` occurs anywhere in a string. -/
def hasLib64 : List Char → Bool
  | [] => false
  | c :: rest =>
    if c = 'l' ∧ rest.take 4 = ['i', 'b', '6', '4'] then true
    else hasLib64 rest

/-- The destination path computed by `copy_tree` (`src/fs.rs`) for one copied
entry: the entry's path relative to the source root, with the `lib64`
substring replacement applied, joined below the destination directory. -/
def copyTreeDest (toDir : List Char) (rel : List Char) : List Char :=
  toDir ++ '/' :: rewriteLib64 rel

/-- Path made of `/`-separated segments. -/
def joinPathSegs : List (List Char) → List Char
  | [] => []
  | s :: rest =>
    match rest with
    | [] => s
    | _ :: _ => s ++ '/' :: joinPathSegs rest

/-- One-step unfolding of `rewriteLib64` on a cons cell. -/
theorem rewriteLib64_cons (c : Char) (rest : List Char) :
    rewriteLib64 (c :: rest) =
      if c = 'l' ∧ rest.take 4 = ['i', 'b', '6', '4'] then
        'l' :: 'i' :: 'b' :: rewriteLib64 (rest.drop 4)
      else c :: rewriteLib64 rest := by
  rw [rewriteLib64]

/-- A string with no `lib64` occurrence is left unchanged. -/
theorem rewriteLib64_of_not_has (s : List Char) (h : hasLib64 s = false) :
    rewriteLib64 s = s := by
  induction s with
  | nil => simp [rewriteLib64]
  | cons c rest ih =>
    rw [hasLib64] at h
    by_cases hc : c = 'l' ∧ rest.take 4 = ['i', 'b', '6', '4']
    · rw [if_pos hc] at h
      cases h
    · rw [if_neg hc] at h
      rw [rewriteLib64_cons, if_neg hc, ih h]

/-- The replacement distributes over a `/` separator: since the pattern
`lib64` contains no slash, no occurrence can span the separator. -/
theorem rewriteLib64_append_sep (t s : List Char) :
    rewriteLib64 (s ++ '/' :: t) = rewriteLib64 s ++ '/' :: rewriteLib64 t := by
  generalize hn : s.length = n
  induction n using Nat.strong_induction_on generalizing s with
  | _ n ih =>
    rcases s with _ | ⟨c, rest⟩
    · rw [List.nil_append, rewriteLib64_cons, if_neg (by simp)]
      simp [rewriteLib64]
    · by_cases hc : c = 'l' ∧ rest.take 4 = ['i', 'b', '6', '4']
      · have hlen4 : 4 ≤ rest.length := by
          have := congrArg List.length hc.2
          simp [List.length_take] at this
          omega
        have htake : (rest ++ '/' :: t).take 4 = ['i', 'b', '6', '4'] := by
          rw [List.take_append_eq_append_take, Nat.sub_eq_zero_of_le hlen4,
            List.take_zero, List.append_nil, hc.2]
        have hdrop : (rest ++ '/' :: t).drop 4 = rest.drop 4 ++ '/' :: t := by
          rw [List.drop_append_eq_append_drop, Nat.sub_eq_zero_of_le hlen4, List.drop_zero]
        have hlt : (rest.drop 4).length < n := by
          rw [← hn]
          simp [List.length_drop]
          omega
        rw [List.cons_append, rewriteLib64_cons, if_pos ⟨hc.1, htake⟩, hdrop,
          ih (rest.drop 4).length hlt (rest.drop 4) rfl,
          rewriteLib64_cons, if_pos hc]
        simp [List.cons_append]
      · have hcond : ¬(c = 'l' ∧ (rest ++ '/' :: t).take 4 = ['i', 'b', '6', '4']) := by
          rintro ⟨hch, htake⟩
          rcases Nat.lt_or_ge rest.length 4 with hlen | hlen
          · have hmem : ('/' : Char) ∈ (rest ++ '/' :: t).take 4 := by
              rw [List.take_append_eq_append_take]
              refine List.mem_append_right _ ?_
              rcases hk : 4 - rest.length with _ | k
              · omega
              · rw [List.take_succ_cons]
                exact List.mem_cons_self _ _
            rw [htake] at hmem
            simp at hmem
          · have : (rest ++ '/' :: t).take 4 = rest.take 4 := by
              rw [List.take_append_eq_append_take, Nat.sub_eq_zero_of_le hlen,
                List.take_zero, List.append_nil]
            rw [this] at htake
            exact hc ⟨hch, htake⟩
        have hlt : rest.length < n := by
          rw [← hn]
          simp
        rw [List.cons_append, rewriteLib64_cons, if_neg hcond,
          ih rest.length hlt rest rfl, rewriteLib64_cons, if_neg hc]
        simp [List.cons_append]

/-- C9 counterexample: a path segment that merely contains `lib64` as a
substring (`xlib64`) is also rewritten by the copy step — `copy_tree` applies
`replace("lib64", "lib")` to the whole relative path string, not
segment-wise — so the claim's "every other path segment left unchanged" fails. -/
theorem c9_copy_tree_cx :
    copyTreeDest "/dst".data "xlib64/a.so".data = "/dst/xlib/a.so".data ∧
    "/dst/xlib/a.so".data ≠ "/dst/xlib64/a.so".data := by
  constructor
  · simp [copyTreeDest, rewriteLib64]
  · decide

/-- Unfolding `joinPathSegs` on a list with at least two segments. -/
theorem joinPathSegs_cons₂ (s s' : List Char) (rest : List (List Char)) :
    joinPathSegs (s :: s' :: rest) = s ++ '/' :: joinPathSegs (s' :: rest) := rfl

/-- Segment-wise reading of the whole-string replacement, valid when no
segment properly contains the pattern. -/
theorem rewriteLib64_joinPathSegs (segs : List (List Char))
    (h : ∀ seg ∈ segs, seg = "lib64".data ∨ hasLib64 seg = false) :
    rewriteLib64 (joinPathSegs segs) =
      joinPathSegs (segs.map fun seg => if seg = "lib64".data then "lib".data else seg) := by
  induction segs with
  | nil => simp [joinPathSegs, rewriteLib64]
  | cons s rest ih =>
    have hseg : rewriteLib64 s = if s = "lib64".data then "lib".data else s := by
      rcases h s (List.mem_cons_self _ _) with hs | hs
      · rw [if_pos hs, hs]
        simp [rewriteLib64]
      · rw [rewriteLib64_of_not_has s hs]
        by_cases hq : s = "lib64".data
        · rw [hq] at hs
          simp [hasLib64] at hs
        · rw [if_neg hq]
    rcases rest with _ | ⟨s', rest'⟩
    · simp only [joinPathSegs, List.map_cons, List.map_nil]
      exact hseg
    · have ih' := ih (fun seg hs' => h seg (List.mem_cons_of_mem s hs'))
      simp only [List.map_cons] at ih' ⊢
      rw [joinPathSegs_cons₂, joinPathSegs_cons₂, rewriteLib64_append_sep, hseg, ih']

/-- C9 (amended): the destination relative path is the source relative path
with every occurrence of the substring `lib64` replaced by `lib`; in
particular, on a path whose segments each either equal `lib64` or do not
contain `lib64` as a substring, exactly the segments equal to `lib64` are
rewritten to `lib` and all others are unchanged. -/
theorem c9_copy_tree_amended (toDir : List Char) (segs : List (List Char))
    (h : ∀ seg ∈ segs, seg = "lib64".data ∨ hasLib64 seg = false) :
    copyTreeDest toDir (joinPathSegs segs) =
      toDir ++ '/' ::
        joinPathSegs (segs.map fun seg => if seg = "lib64".data then "lib".data else seg) := by
  unfold copyTreeDest
  rw [rewriteLib64_joinPathSegs segs h]

/-- C9 witness: the amended rewrite evaluated on a concrete tree entry whose
middle segment is exactly `lib64`. -/
theorem c9_copy_tree_amended_witness :
    copyTreeDest "/root/.wasmedge".data
        (joinPathSegs ["usr".data, "lib64".data, "libwasmedge.so".data]) =
      "/root/.wasmedge".data ++ '/' ::
        joinPathSegs ["usr".data, "lib".data, "libwasmedge.so".data] := by
  have h := c9_copy_tree_amended "/root/.wasmedge".data
    ["usr".data, "lib64".data, "libwasmedge.so".data] (by decide)
  simpa using h

/-! ## Symlink switchboard (`src/fs.rs`, `create_version_symlinks`) -/

/-- A filesystem entry at one of the install root's top-level names. -/
inductive FsEntry where
  | symlink (target : String)
  | file
  | dir
  deriving DecidableEq, Repr

/-- The four top-level entries of an install root (`bin`, `include`, `lib`,
`plugin`; field `inc` stands for `include`, `plg` for `plugin`). -/
structure LinkState where
  bin : Option FsEntry
  inc : Option FsEntry
  lib : Option FsEntry
  plg : Option FsEntry
  deriving DecidableEq, Repr

/-- Look up the entry at a top-level name. -/
def LinkState.get (st : LinkState) (name : String) : Option FsEntry :=
  if name = "bin" then st.bin
  else if name = "include" then st.inc
  else if name = "lib" then st.lib
  else if name = "plugin" then st.plg
  else none

/-- Replace the entry at a top-level name. -/
def LinkState.set (st : LinkState) (name : String) (e : Option FsEntry) : LinkState :=
  if name = "bin" then { st with bin := e }
  else if name = "include" then { st with inc := e }
  else if name = "lib" then { st with lib := e }
  else if name = "plugin" then { st with plg := e }
  else st

/-- Which primitive filesystem operations fail, keyed by the symlink name the
loop is processing: `remove_file`, `remove_dir_all` and `symlink` can each
fail independently (permission errors and the like). -/
structure FaultEnv where
  removeFileFail : String → Bool
  removeDirFail : String → Bool
  symlinkFail : String → Bool

/-- The relative symlink target `versions/<version>/<dir>` formatted by
`create_version_symlinks`. -/
def targetFor (version dir : String) : String :=
  "versions/" ++ version ++ "/" ++ dir

/-- One iteration of the `create_version_symlinks` loop (`src/fs.rs`, unix
branch): a pre-existing symlink or file is removed with `remove_file`, a
pre-existing real directory with `remove_dir_all`, then the relative symlink
`versions/<version>/<dir>` is created; each failing step returns early with
the error, leaving the filesystem as mutated so far. -/
def switchOne (env : FaultEnv) (version dir : String) (st : LinkState) :
    LinkState × Option Error :=
  let removed : LinkState × Option Error :=
    match st.get dir with
    | some (.symlink _) | some .file =>
      if env.removeFileFail dir then (st, some (.Io "remove old symlink" dir))
      else (st.set dir none, none)
    | some .dir =>
      if env.removeDirFail dir then
        (st, some (.Io "remove existing directory before creating symlink" dir))
      else (st.set dir none, none)
    | none => (st, none)
  match removed with
  | (st1, none) =>
    if env.symlinkFail dir then (st1, some (.Io "create symlink" dir))
    else (st1.set dir (some (.symlink (targetFor version dir))), none)
  | (st1, some e) => (st1, some e)

/-- The `for dir in symlink_dirs` loop of `create_version_symlinks`: the `?`
operator propagates the first failure, abandoning the remaining names. -/
def switchLoop (env : FaultEnv) (version : String) (dirs : List String) (st : LinkState) :
    LinkState × Option Error :=
  match dirs with
  | [] => (st, none)
  | d :: ds =>
    match switchOne env version d st with
    | (st1, none) => switchLoop env version ds st1
    | (st1, some e) => (st1, some e)

/-- `create_version_symlinks` from `src/fs.rs`: switches the four top-level
symlinks to `versions/<version>/<name>` in the source's order. -/
def createVersionSymlinks (env : FaultEnv) (version : String) (st : LinkState) :
    LinkState × Option Error :=
  switchLoop env version ["bin", "include", "lib", "plugin"] st

/-- All four top-level entries are symlinks into `versions/<v>/`. -/
def allLinksTo (st : LinkState) (v : String) : Bool :=
  st.bin == some (.symlink (targetFor v "bin")) &&
  st.inc == some (.symlink (targetFor v "include")) &&
  st.lib == some (.symlink (targetFor v "lib")) &&
  st.plg == some (.symlink (targetFor v "plugin"))

/-- All four top-level entries are absent. -/
def allAbsent (st : LinkState) : Bool :=
  st.bin == none && st.inc == none && st.lib == none && st.plg == none

/-- The fully-consistent state whose four symlinks point into `versions/<v>/`. -/
def priorLinks (v : String) : LinkState :=
  ⟨some (.symlink (targetFor v "bin")), some (.symlink (targetFor v "include")),
   some (.symlink (targetFor v "lib")), some (.symlink (targetFor v "plugin"))⟩

/-- A fault environment where only the `symlink` syscall for the name `lib`
fails. -/
def libFailEnv : FaultEnv :=
  ⟨fun _ => false, fun _ => false, fun d => d == "lib"⟩

/-- C1 counterexample: with `versions/0.1.0` current, a switch to `0.2.0`
whose `symlink` syscall fails at the third name (`lib`) returns an error and
leaves `bin` and `include` pointing at 0.2.0, `lib` absent, and `plugin`
still at 0.1.0 — neither the prior fully-consistent state nor any consistent
state, refuting the all-or-nothing guarantee. -/
theorem c1_use_switch_cx :
    (createVersionSymlinks libFailEnv "0.2.0" (priorLinks "0.1.0")).2 =
        some (.Io "create symlink" "lib") ∧
    (createVersionSymlinks libFailEnv "0.2.0" (priorLinks "0.1.0")).1 ≠ priorLinks "0.1.0" ∧
    allLinksTo (createVersionSymlinks libFailEnv "0.2.0" (priorLinks "0.1.0")).1 "0.1.0" = false ∧
    allLinksTo (createVersionSymlinks libFailEnv "0.2.0" (priorLinks "0.1.0")).1 "0.2.0" = false ∧
    allAbsent (createVersionSymlinks libFailEnv "0.2.0" (priorLinks "0.1.0")).1 = false := by
  decide

/-- `LinkState.set` at the four literal names. -/
theorem linkSet_bin (st : LinkState) (e : Option FsEntry) :
    st.set "bin" e = { st with bin := e } := rfl

theorem linkSet_include (st : LinkState) (e : Option FsEntry) :
    st.set "include" e = { st with inc := e } := rfl

theorem linkSet_lib (st : LinkState) (e : Option FsEntry) :
    st.set "lib" e = { st with lib := e } := rfl

theorem linkSet_plugin (st : LinkState) (e : Option FsEntry) :
    st.set "plugin" e = { st with plg := e } := rfl

/-- Overwriting the same name twice keeps only the second write. -/
theorem LinkState.set_set (st : LinkState) (d : String) (a b : Option FsEntry) :
    (st.set d a).set d b = st.set d b := by
  unfold LinkState.set
  by_cases h1 : d = "bin"
  · simp [h1]
  · by_cases h2 : d = "include"
    · simp [h1, h2]
    · by_cases h3 : d = "lib"
      · simp [h1, h2, h3]
      · by_cases h4 : d = "plugin"
        · simp [h1, h2, h3, h4]
        · simp [h1, h2, h3, h4]

/-- One loop iteration under a fault-free environment always succeeds and
installs the symlink, whatever entry was there before. -/
theorem switchOne_ok (env : FaultEnv) (v d : String) (st : LinkState)
    (hrf : env.removeFileFail d = false) (hrd : env.removeDirFail d = false)
    (hsl : env.symlinkFail d = false) :
    switchOne env v d st = (st.set d (some (.symlink (targetFor v d))), none) := by
  unfold switchOne
  rcases hg : st.get d with _ | e
  · simp [hsl]
  · rcases e with t | _ | _ <;> simp [hsl, hrf, hrd, LinkState.set_set]

/-- The whole loop under a fault-free environment: success, with every listed
name switched in order. -/
theorem switchLoop_ok (env : FaultEnv) (v : String) (dirs : List String) (st : LinkState)
    (hrf : ∀ d, env.removeFileFail d = false)
    (hrd : ∀ d, env.removeDirFail d = false)
    (hsl : ∀ d, env.symlinkFail d = false) :
    switchLoop env v dirs st =
      (dirs.foldl (fun s d => s.set d (some (.symlink (targetFor v d)))) st, none) := by
  induction dirs generalizing st with
  | nil => rfl
  | cons d ds ih =>
    rw [switchLoop, switchOne_ok env v d st (hrf d) (hrd d) (hsl d)]
    rw [List.foldl_cons]
    exact ih _

/-- C1 (amended): `use` switches the four top-level symlinks sequentially in
the order `bin`, `include`, `lib`, `plugin`, returning at the first failed
filesystem operation; when every primitive operation succeeds, the call
succeeds and all four symlinks point into `versions/<v>/`.  A mid-loop
failure, however, can leave a partial set — already-processed names at the
new version, later names untouched — so the all-or-nothing guarantee holds
only in the fault-free case. -/
theorem c1_use_switch_amended (env : FaultEnv) (v : String) (st : LinkState)
    (hrf : ∀ d, env.removeFileFail d = false)
    (hrd : ∀ d, env.removeDirFail d = false)
    (hsl : ∀ d, env.symlinkFail d = false) :
    (createVersionSymlinks env v st).2 = none ∧
    allLinksTo (createVersionSymlinks env v st).1 v = true := by
  unfold createVersionSymlinks
  rw [switchLoop_ok env v _ st hrf hrd hsl]
  simp only [List.foldl_cons, List.foldl_nil, linkSet_bin, linkSet_include, linkSet_lib,
    linkSet_plugin]
  simp [allLinksTo]

/-- C1 witness: the amended success case at a concrete root whose four links
point at 0.1.0, switched fault-free to 0.2.0. -/
theorem c1_use_switch_amended_witness :
    (createVersionSymlinks ⟨fun _ => false, fun _ => false, fun _ => false⟩ "0.2.0"
        (priorLinks "0.1.0")).2 = none ∧
    allLinksTo (createVersionSymlinks ⟨fun _ => false, fun _ => false, fun _ => false⟩ "0.2.0"
        (priorLinks "0.1.0")).1 "0.2.0" = true :=
  c1_use_switch_amended ⟨fun _ => false, fun _ => false, fun _ => false⟩ "0.2.0"
    (priorLinks "0.1.0") (fun _ => rfl) (fun _ => rfl) (fun _ => rfl)

/-! ## Plugin CLI dispatcher (`src/commands/plugin/mod.rs`) -/

/-- `PluginVersion` (declared in `src/commands/plugin/version.rs`, missing
from `src/`; reconstructed from its pattern-matches in `plugin/remove.rs`):
a plugin name with an optional version. -/
inductive PluginVersion where
  | Name (n : String)
  | NameAndVersion (n v : String)
  deriving DecidableEq, Repr

/-- The fields of `PluginRemoveArgs` from `src/commands/plugin/remove.rs`. -/
structure PluginRemoveArgs where
  plugins : List PluginVersion
  runtime : Option String
  path : Option String
  deriving DecidableEq, Repr

/-- `PluginCommands` from `src/commands/plugin/mod.rs`; the payload types of
the three dispatchable subcommands are abstract parameters. -/
inductive PluginCommands (I L S : Type) where
  | Install (args : I)
  | List (args : L)
  | Remove (args : PluginRemoveArgs)
  | Specs (args : S)

/-- `PluginCli::execute` from `src/commands/plugin/mod.rs`: dispatches
`Install`, `List` and `Specs` to their handlers; every other subcommand —
exactly `Remove` — falls to the wildcard arm `Err(Error::Unknown)` without
running any handler.  Handlers act on an abstract filesystem state `FS`. -/
def pluginCliExecute {I L S FS : Type}
    (hInstall : I → FS → Except Error Unit × FS)
    (hList : L → FS → Except Error Unit × FS)
    (hSpecs : S → FS → Except Error Unit × FS) :
    PluginCommands I L S → FS → Except Error Unit × FS
  | .Install a, fs => hInstall a fs
  | .List a, fs => hList a fs
  | .Specs a, fs => hSpecs a fs
  | .Remove _, fs => (.error .Unknown, fs)

/-- C10: dispatching the plugin `Remove` subcommand through
`PluginCli::execute` returns the error `Unknown` and leaves the filesystem
state untouched, for every argument list, every state and every choice of the
other subcommands' handlers: the plugin-removal implementation of
`plugin/remove.rs` is unreachable through the dispatcher. -/
theorem c10_plugin_remove_unreachable {I L S FS : Type}
    (hInstall : I → FS → Except Error Unit × FS)
    (hList : L → FS → Except Error Unit × FS)
    (hSpecs : S → FS → Except Error Unit × FS)
    (args : PluginRemoveArgs) (fs : FS) :
    pluginCliExecute hInstall hList hSpecs (.Remove args) fs = (.error .Unknown, fs) := rfl

/-! ## Version removal (`src/commands/remove.rs`) -/

/-- `Ord for String` in Rust: byte-lexicographic comparison (on the ASCII
names used here, identical to code-point order). -/
def charListLe : List Char → List Char → Bool
  | [], _ => true
  | _ :: _, [] => false
  | a :: as, b :: bs =>
    if a.toNat < b.toNat then true
    else if b.toNat < a.toNat then false
    else charListLe as bs

/-- Ascending sort of plain strings — `Vec<String>::sort()`, lexicographic
order.  (Any sorting algorithm for the same total order yields the same
list; insertion sort is used here.) -/
def stringSort (l : List String) : List String :=
  l.insertionSort (fun a b => charListLe a.data b.data = true)

/-- `RemoveCommand::get_latest_installed_version` from
`src/commands/remove.rs`: errors when `versions/` is missing or empty,
otherwise collects the directory names, sorts them as plain strings
(lexicographically — NOT by semantic version), and returns the last. -/
def getLatestInstalledVersion (versionsDir : Option (List String)) :
    Except WasmedgeupError String :=
  match versionsDir with
  | none => .error .NoVersionsInstalled
  | some versions =>
    if versions.isEmpty then .error .NoVersionsInstalled
    else
      match (stringSort versions).getLast? with
      | some v => .ok v
      | none => .error .NoVersionsInstalled

/-- `latest_installed_version` from `src/api/mod.rs` (the semver-correct
variant the repo's tests use): parses each directory name as a semantic
version, sorts descending by semantic-version order (`sort_by(|a, b|
b.cmp(a))`), and returns the first, if any. -/
def apiLatestInstalledVersion (names : List String) : Option SemVer :=
  let versions := names.filterMap versionParse
  (versions.insertionSort (fun a b => semverGe a b = true)).head?

/-- The on-disk state read and written by `RemoveCommand`
(`src/commands/remove.rs`): the `versions/` directory listing (or absent),
the optional `current` marker file's content, the top-level `bin` entry (its
symlink target, when present), and the `versions.json` registry. -/
structure RemoveState where
  versionsDir : Option (List String)
  currentFile : Option String
  binLink : Option String
  registry : List String
  deriving DecidableEq, Repr

/-- `RemoveCommand::get_current_version`: the trimmed `current` marker file
when it exists, else the lexicographically-latest installed version. -/
def getCurrentVersion (st : RemoveState) : Except WasmedgeupError String :=
  match st.currentFile with
  | some v => .ok v.trim
  | none => getLatestInstalledVersion st.versionsDir

/-- `RemoveCommand::is_active_version`. -/
def isActiveVersion (st : RemoveState) (version : String) : Bool :=
  match getCurrentVersion st with
  | .ok cur => cur == version
  | .error _ => false

/-- `RemoveCommand::remove_version` from `src/commands/remove.rs`: deletes
`versions/<version>/` (or fails with `VersionNotFound` when that directory
is missing), then — only when a top-level `bin` entry exists and the version
is judged active via the `current`-file / lexicographic-latest fallback —
removes the `bin` entry, and finally updates the `versions.json` registry.
No `use()` / symlink-switch is ever invoked. -/
def removeVersion (st : RemoveState) (version : String) :
    Except WasmedgeupError Unit × RemoveState :=
  let versionDirExists :=
    match st.versionsDir with
    | some vs => vs.contains version
    | none => false
  if versionDirExists then
    let st1 : RemoveState :=
      { st with versionsDir := st.versionsDir.map (fun vs => vs.erase version) }
    let st2 : RemoveState :=
      if st1.binLink.isSome && isActiveVersion st1 version then { st1 with binLink := none }
      else st1
    let st3 : RemoveState := { st2 with registry := st2.registry.filter (fun v => v ≠ version) }
    (.ok (), st3)
  else (.error (.VersionNotFound version), st)

/-- C2: at the failing input — versions `0.9.0 < 0.14.1 < 0.20.0` installed,
`0.20.0` active through the `bin` symlink, no `current` marker —
`remove_version "0.20.0"` succeeds but leaves the `bin` symlink dangling at
`versions/0.20.0/bin`: the active-version test compares `0.20.0` against the
lexicographically-last remaining name, which string sort makes `0.9.0` (not
the semver-latest `0.14.1`), so the bin entry is kept and no `use()` fallback
ever runs, while the semver-correct next-latest — as `latest_installed_version`
of `src/api/mod.rs` computes and the repo's own remove test expects — is
`0.14.1`. -/
theorem c2_remove_fallback_code_bug :
    removeVersion ⟨some ["0.14.1", "0.20.0", "0.9.0"], none, some "versions/0.20.0/bin", []⟩
        "0.20.0" =
      (.ok (), ⟨some ["0.14.1", "0.9.0"], none, some "versions/0.20.0/bin", []⟩) ∧
    getLatestInstalledVersion (some ["0.14.1", "0.9.0"]) = .ok "0.9.0" ∧
    apiLatestInstalledVersion ["0.14.1", "0.9.0"] = some ⟨0, 14, 1, [], []⟩ ∧
    (isActiveVersion ⟨some ["0.14.1", "0.9.0"], none, some "versions/0.20.0/bin", []⟩
        "0.20.0") = false := by
  refine ⟨?_, ?_, ?_, ?_⟩ <;> rfl

/-! ## Runtime installation (`src/commands/install.rs`) -/

/-- The filesystem state affected by `InstallArgs::execute`: the installed
file paths and the top-level symlink set. -/
structure InstallFs where
  files : List (List Char)
  links : LinkState
  deriving DecidableEq, Repr

/-- The file-placement step of `InstallArgs::execute`
(`src/commands/install.rs`): after choosing the source root,
`copy_tree(&extracted_dir, &target_dir)` copies every entry straight into
the install root itself — not into `versions/<version>/` — applying
`copy_tree`'s `lib64` rewrite; the symlink set is never touched, and no
write-permission probe (`can_write_to_directory`) is performed anywhere in
`execute`. -/
def installExecute (targetDir : List Char) (extractedRelFiles : List (List Char))
    (links : LinkState) : InstallFs :=
  { files := extractedRelFiles.map (copyTreeDest targetDir), links := links }

/-- `p` lies below the directory prefix `d`. -/
def underDir (d p : List Char) : Bool :=
  p.take d.length == d

/-- C3 counterexample: installing `0.14.1` places the entry `bin/wasmedge`
at `<root>/bin/wasmedge`, which does not lie under `<root>/versions/` at
all — `execute` copies the tree flat into the install root instead of into
`versions/0.14.1/`. -/
theorem c3_install_cx :
    (installExecute "/root/.wasmedge".data ["bin/wasmedge".data]
        ⟨none, none, none, none⟩).files = ["/root/.wasmedge/bin/wasmedge".data] ∧
    underDir "/root/.wasmedge/versions/".data "/root/.wasmedge/bin/wasmedge".data = false := by
  constructor
  · simp [installExecute, copyTreeDest, rewriteLib64]
  · decide

/-- C3 (amended): `install` copies the extracted tree flat into the install
root — every installed file lands at `<root>/<rel>` (with the `lib64`
rewrite applied), not under `versions/<V>/` — performs no write-permission
probe, and leaves the top-level symlink set unchanged (in particular it does
not make the new version current). -/
theorem c3_install_amended (targetDir : List Char) (rels : List (List Char))
    (links : LinkState) :
    (installExecute targetDir rels links).links = links ∧
    ∀ p ∈ (installExecute targetDir rels links).files,
      ∃ rel ∈ rels, p = targetDir ++ '/' :: rewriteLib64 rel := by
  constructor
  · rfl
  · intro p hp
    rcases List.mem_map.mp hp with ⟨rel, hrel, heq⟩
    exact ⟨rel, hrel, heq.symm⟩

/-- C3 witness: the amended statement applied at a concrete one-file tree. -/
theorem c3_install_amended_witness :
    (installExecute "/r".data ["bin/w".data] ⟨none, none, none, none⟩).links =
      ⟨none, none, none, none⟩ ∧
    ∃ rel ∈ ["bin/w".data], "/r/bin/w".data = "/r".data ++ '/' :: rewriteLib64 rel := by
  constructor
  · exact (c3_install_amended "/r".data ["bin/w".data] ⟨none, none, none, none⟩).1
  · refine (c3_install_amended "/r".data ["bin/w".data] ⟨none, none, none, none⟩).2
      "/r/bin/w".data ?_
    simp [installExecute, copyTreeDest, rewriteLib64]

/-! ## Extracted-archive layout (`src/commands/install.rs`) -/

/-- Which directory becomes the copy source after extraction. -/
inductive SourceRoot where
  | nested (name : String)
  | staging
  deriving DecidableEq, Repr

/-- The staging-directory inspection of `InstallArgs::execute`
(`src/commands/install.rs`): try `tmpdir/<install_name>` and, when that is
not a directory, unconditionally fall back to the staging directory itself —
no validation of the layout.  `children` lists the staging directory's
immediate entries as (name, directory?) pairs. -/
def selectExtractedDir (children : List (String × Bool)) (installName : String) : SourceRoot :=
  if children.any (fun c => c.1 == installName && c.2) then .nested installName
  else .staging

/-- Modelled from the spec: the archive-layout validation that
`Error::InvalidArchiveStructure` (declared with exactly this contract in
`src/error.rs`, but raised nowhere in `src/`) belongs to: if exactly one
immediate child is a directory whose name starts with the expected
runtime-name prefix, it becomes the source root; otherwise, if the immediate
children are a subset of `{bin, lib64, include, lib}`, the staging directory
itself is the source root; any other shape fails with
`InvalidArchiveStructure{found_file}` naming the offending entry. -/
def specSelectSourceRoot (children : List (String × Bool)) (runtimeNamePre : String) :
    Except Error SourceRoot :=
  match children.filter (fun c => c.2 && c.1.startsWith runtimeNamePre) with
  | [d] => .ok (.nested d.1)
  | _ =>
    match children.find? (fun c => !(["bin", "lib64", "include", "lib"].contains c.1)) with
    | some c => .error (.InvalidArchiveStructure c.1)
    | none => .ok .staging

/-- C7: at the failing input — a staging directory whose only immediate
entry is the regular file `garbage.txt`, with no
`WasmEdge-0.14.1-Linux` directory — the code's layout selection silently
falls back to the staging directory (and can never fail, whatever the
layout), while the check the spec describes rejects the layout with
`InvalidArchiveStructure` naming the offending entry. -/
theorem c7_archive_structure_code_bug :
    selectExtractedDir [("garbage.txt", false)] "WasmEdge-0.14.1-Linux" = .staging ∧
    specSelectSourceRoot [("garbage.txt", false)] "WasmEdge-" =
      .error (.InvalidArchiveStructure "garbage.txt") ∧
    (∀ children installName,
      selectExtractedDir children installName = .staging ∨
      selectExtractedDir children installName = .nested installName) := by
  refine ⟨rfl, ?_, ?_⟩
  · rfl
  · intro children installName
    unfold selectExtractedDir
    by_cases h : children.any (fun c => c.1 == installName && c.2) = true
    · right
      rw [if_pos h]
    · left
      rw [if_neg h]

/-! ## SHA-256 (the sha2 crate as used by `verify_file_checksum`)

The streaming `Sha256` hasher of `verify_file_checksum` consumes the file in
8 KiB chunks; incremental hashing of a byte stream equals hashing the whole
stream, so the digest is modelled as the FIPS 180-4 SHA-256 of the byte
list.  All word arithmetic is `Nat` reduced modulo `2^32`. -/

/-- Truncation to a 32-bit word. -/
def w32 (n : Nat) : Nat := n % 4294967296

/-- Right rotation of a 32-bit word. -/
def rotr32 (n x : Nat) : Nat := w32 ((x >>> n) ||| (x <<< (32 - n)))

/-- SHA-256 `Ch(x, y, z)`. -/
def shaCh (x y z : Nat) : Nat := (x &&& y) ^^^ ((x ^^^ 4294967295) &&& z)

/-- SHA-256 `Maj(x, y, z)`. -/
def shaMaj (x y z : Nat) : Nat := (x &&& y) ^^^ (x &&& z) ^^^ (y &&& z)

/-- SHA-256 `Σ0`. -/
def bigSigma0 (x : Nat) : Nat := rotr32 2 x ^^^ rotr32 13 x ^^^ rotr32 22 x

/-- SHA-256 `Σ1`. -/
def bigSigma1 (x : Nat) : Nat := rotr32 6 x ^^^ rotr32 11 x ^^^ rotr32 25 x

/-- SHA-256 `σ0`. -/
def smallSigma0 (x : Nat) : Nat := rotr32 7 x ^^^ rotr32 18 x ^^^ (x >>> 3)

/-- SHA-256 `σ1`. -/
def smallSigma1 (x : Nat) : Nat := rotr32 17 x ^^^ rotr32 19 x ^^^ (x >>> 10)

/-- The 64 SHA-256 round constants (FIPS 180-4 section 4.2.2, here written
in decimal). -/
def sha256K : List Nat :=
  [1116352408, 1899447441, 3049323471, 3921009573, 961987163, 1508970993,
   2453635748, 2870763221, 3624381080, 310598401, 607225278, 1426881987,
   1925078388, 2162078206, 2614888103, 3248222580, 3835390401, 4022224774,
   264347078, 604807628, 770255983, 1249150122, 1555081692, 1996064986,
   2554220882, 2821834349, 2952996808, 3210313671, 3336571891, 3584528711,
   113926993, 338241895, 666307205, 773529912, 1294757372, 1396182291,
   1695183700, 1986661051, 2177026350, 2456956037, 2730485921, 2820302411,
   3259730800, 3345764771, 3516065817, 3600352804, 4094571909, 275423344,
   430227734, 506948616, 659060556, 883997877, 958139571, 1322822218,
   1537002063, 1747873779, 1955562222, 2024104815, 2227730452, 2361852424,
   2428436474, 2756734187, 3204031479, 3329325298]

/-- The initial SHA-256 hash state (FIPS 180-4 section 5.3.3, decimal). -/
def sha256H0 : List Nat :=
  [1779033703, 3144134277, 1013904242, 2773480762,
   1359893119, 2600822924, 528734635, 1541459225]

/-- FIPS 180-4 padding: append `0x80`, zero bytes to 56 mod 64, then the
bit length as an 8-byte big-endian integer. -/
def sha256Pad (msg : List Nat) : List Nat :=
  let len := msg.length
  let zeros := (120 - ((len + 1) % 64)) % 64
  let bitLen := 8 * len
  msg ++ 128 :: List.replicate zeros 0 ++
    [(bitLen >>> 56) % 256, (bitLen >>> 48) % 256, (bitLen >>> 40) % 256, (bitLen >>> 32) % 256,
     (bitLen >>> 24) % 256, (bitLen >>> 16) % 256, (bitLen >>> 8) % 256, bitLen % 256]

/-- Big-endian bytes to 32-bit words. -/
def bytesToWords : List Nat → List Nat
  | b0 :: b1 :: b2 :: b3 :: rest =>
    (((b0 * 256 + b1) * 256 + b2) * 256 + b3) :: bytesToWords rest
  | _ => []

/-- Split a list into chunks of `n` (the `fuel` bounds the recursion and is
instantiated with the list length, which is always enough for `n > 0`). -/
def chunkList {α : Type} (n : Nat) : Nat → List α → List (List α)
  | 0, _ => []
  | _, [] => []
  | fuel + 1, l => l.take n :: chunkList n fuel (l.drop n)

/-- Extend a 16-word block to the 64-word message schedule, `n` steps. -/
def sha256ScheduleExt : Nat → List Nat → List Nat
  | 0, ws => ws
  | n + 1, ws =>
    let t := w32 (smallSigma1 (ws.getD (ws.length - 2) 0) + ws.getD (ws.length - 7) 0 +
                  smallSigma0 (ws.getD (ws.length - 15) 0) + ws.getD (ws.length - 16) 0)
    sha256ScheduleExt n (ws ++ [t])

/-- One SHA-256 round on the 8-word working state, with `(Wₜ, Kₜ)`. -/
def sha256Round (st : List Nat) (wk : Nat × Nat) : List Nat :=
  match st with
  | [a, b, c, d, e, f, g, h] =>
    let t1 := w32 (h + bigSigma1 e + shaCh e f g + wk.2 + wk.1)
    let t2 := w32 (bigSigma0 a + shaMaj a b c)
    [w32 (t1 + t2), a, b, c, w32 (d + t1), e, f, g]
  | other => other

/-- Compress one 16-word block into the running hash state. -/
def sha256Compress (hs : List Nat) (block : List Nat) : List Nat :=
  let ws := sha256ScheduleExt 48 block
  let st := (ws.zip sha256K).foldl sha256Round hs
  (hs.zip st).map (fun p => w32 (p.1 + p.2))

/-- The SHA-256 digest (32 bytes) of a byte list. -/
def sha256 (msg : List Nat) : List Nat :=
  let padded := sha256Pad msg
  let blocks := (chunkList 64 padded.length padded).map bytesToWords
  let hs := blocks.foldl sha256Compress sha256H0
  hs.foldr (fun w acc =>
    (w >>> 24) % 256 :: (w >>> 16) % 256 :: (w >>> 8) % 256 :: w % 256 :: acc) []

/-- A lowercase hexadecimal digit. -/
def hexDigit (n : Nat) : Char :=
  if n < 10 then Char.ofNat (48 + n) else Char.ofNat (87 + n)

/-- `hex::encode`: lowercase hexadecimal of a byte list. -/
def hexEncode (bytes : List Nat) : String :=
  String.mk (bytes.foldr (fun b acc => hexDigit (b / 16) :: hexDigit (b % 16) :: acc) [])

/-! ## Checksum verification (`src/api/mod.rs`, `verify_file_checksum`) -/

/-- A local file as `verify_file_checksum` sees it: its byte content, the
handle's read position, and whether it still exists on disk. -/
structure FileState where
  content : List Nat
  pos : Nat
  present : Bool
  deriving DecidableEq, Repr

/-- `WasmEdgeApiClient::verify_file_checksum` from `src/api/mod.rs`: reads
from the handle's position to EOF in 8 KiB chunks feeding the streaming
SHA-256, lowercase-hex-encodes the digest and compares it with the expected
string; on mismatch it returns `ChecksumMismatch{expected, actual}` before
any rewind (so the position stays at EOF) and deletes nothing; on success it
rewinds the handle to offset 0. -/
def verifyFileChecksum (f : FileState) (expected : String) :
    Except Error Unit × FileState :=
  let hashed := f.content.drop f.pos
  let atEof : FileState := { f with pos := f.content.length }
  let actual := hexEncode (sha256 hashed)
  if actual ≠ expected then
    (.error (.ChecksumMismatch expected actual), atEof)
  else
    (.ok (), { atEof with pos := 0 })

/-- C8: for every file content and expected digest string, verification
(started at offset 0 on an existing file) succeeds exactly when the
lowercase-hex SHA-256 of the content equals the expected string, and then
leaves the read position at offset 0; on mismatch it returns
`ChecksumMismatch` with the expected and the differing actual digest
populated, leaves the position at EOF, and the file still present — it is
never deleted. -/
theorem c8_verify_checksum (content : List Nat) (expected : String) :
    (hexEncode (sha256 content) = expected →
      verifyFileChecksum ⟨content, 0, true⟩ expected = (.ok (), ⟨content, 0, true⟩)) ∧
    (hexEncode (sha256 content) ≠ expected →
      verifyFileChecksum ⟨content, 0, true⟩ expected =
        (.error (.ChecksumMismatch expected (hexEncode (sha256 content))),
         ⟨content, content.length, true⟩)) ∧
    (verifyFileChecksum ⟨content, 0, true⟩ expected).2.present = true := by
  unfold verifyFileChecksum
  simp only [List.drop_zero]
  refine ⟨?_, ?_, ?_⟩
  · intro h
    rw [if_neg (fun hne => hne h)]
  · intro h
    rw [if_pos h]
  · by_cases h : hexEncode (sha256 content) ≠ expected
    · rw [if_pos h]
    · rw [if_neg h]

/-- C8 witness: the digest of the bytes of `"abc"` is the well-known
SHA-256 test vector; verification succeeds against it (rewinding to 0) and
fails against a wrong digest with both fields populated and the position
left at EOF (offset 3), file retained. -/
theorem c8_verify_checksum_witness :
    hexEncode (sha256 [97, 98, 99]) =
      "ba7816bf8f01cfea414140de5dae2223b00361a396177a9cb410ff61f20015ad" ∧
    verifyFileChecksum ⟨[97, 98, 99], 0, true⟩
        "ba7816bf8f01cfea414140de5dae2223b00361a396177a9cb410ff61f20015ad" =
      (.ok (), ⟨[97, 98, 99], 0, true⟩) ∧
    verifyFileChecksum ⟨[97, 98, 99], 0, true⟩ "00" =
      (.error (.ChecksumMismatch "00"
          "ba7816bf8f01cfea414140de5dae2223b00361a396177a9cb410ff61f20015ad"),
       ⟨[97, 98, 99], 3, true⟩) := by
  have h1 : hexEncode (sha256 [97, 98, 99]) =
      "ba7816bf8f01cfea414140de5dae2223b00361a396177a9cb410ff61f20015ad" := by
    decide
  refine ⟨h1, ?_, ?_⟩
  · exact (c8_verify_checksum [97, 98, 99]
      "ba7816bf8f01cfea414140de5dae2223b00361a396177a9cb410ff61f20015ad").1 h1
  · have h := (c8_verify_checksum [97, 98, 99] "00").2.1 (by rw [h1]; decide)
    rw [h, h1]
    rfl

end Wasmedgeup
